import Mathlib

/-!
Shallow embedding of MojoSpy (src/js/MojoSpy.js), a single-class JavaScript
method-spy library, together with theorems checking its specification.

JavaScript values are modelled by the inductive `Value` (with reference
identity for objects and functions as a `Nat` id). The spy instance state is
the structure `Spy`, mirroring the fields `object`, `methodName`, `method`
(the captured original implementation), `isRecording`, `callThru` and
`callHistory`. The one mutated slot of the target object lives in a `Heap`
(object id × member name → value). An intercepted invocation of the wrapper
is `spyInvoke`; what the wrapper dispatches to is reported as a list of
`CallEvent`s, and callee behaviour is supplied by a semantic oracle `FnSem`
(returning normally or throwing, via `Except`).
-/

set_option maxHeartbeats 1000000

namespace MojoSpyJS

/-- JavaScript runtime values. `obj` and `fn` carry a reference identity;
`nan` is the number NaN (never strictly equal to anything, falsy). Numbers
are otherwise modelled as integers, which covers every value the library
manipulates. -/
inductive Value where
  | undef
  | null
  | bool (b : Bool)
  | num (n : Int)
  | nan
  | str (s : String)
  | obj (id : Nat)
  | fn (id : Nat)
deriving DecidableEq, Repr

/-- JavaScript strict equality `===` on modelled values. `nan` is not equal
to anything, itself included (falls through to the catch-all case). -/
def strictEq : Value → Value → Bool
  | Value.undef, Value.undef => true
  | Value.null, Value.null => true
  | Value.bool a, Value.bool b => a == b
  | Value.num a, Value.num b => a == b
  | Value.str a, Value.str b => a == b
  | Value.obj a, Value.obj b => a == b
  | Value.fn a, Value.fn b => a == b
  | _, _ => false

/-- JavaScript truthiness of a modelled value. -/
def truthy : Value → Bool
  | Value.undef => false
  | Value.null => false
  | Value.bool b => b
  | Value.num n => n != 0
  | Value.nan => false
  | Value.str s => s != ""
  | Value.obj _ => true
  | Value.fn _ => true

/-- `typeof v === 'function'`. -/
def isFunction : Value → Bool
  | Value.fn _ => true
  | _ => false

/-- The member slots of all objects: object id × member name → value. -/
def Heap : Type := Nat → String → Value

/-- Assignment `object[memberName] = v` on the heap. -/
def setSlot (h : Heap) (o : Nat) (m : String) (v : Value) : Heap :=
  fun o2 m2 => if o2 = o then (if m2 = m then v else h o2 m2) else h o2 m2

/-- The state of one `MojoSpy` instance: the fields assigned by the
constructor and mutated by the prototype methods. `method` is the captured
original implementation (`null` after `retire`); `callThru` is the single
overloaded forward-mode field (boolean or function); `callHistory` is the
list of recorded argument lists, oldest first. -/
structure Spy where
  object : Value
  methodName : String
  method : Value
  isRecording : Bool
  callThru : Value
  callHistory : List (List Value)
deriving DecidableEq, Repr

/-- `on()`: turns recording on. -/
def Spy.on (s : Spy) : Spy := { s with isRecording := true }

/-- `off()`: turns recording off. -/
def Spy.off (s : Spy) : Spy := { s with isRecording := false }

/-- `clear()`: resets the call history to an empty list. -/
def Spy.clear (s : Spy) : Spy := { s with callHistory := [] }

/-- `reset()`: `this.on(); this.callThru = false; this.clear();`. -/
def Spy.reset (s : Spy) : Spy :=
  Spy.clear { s.on with callThru := Value.bool false }

/-- The string thrown by the constructor on a non-function member. -/
def notCallableMsg : Value := Value.str "Cannot spy on a non-function!"

/-- The `MojoSpy(object, methodName)` constructor. `wrapperId` is the
reference identity of the freshly created wrapper closure `spy` (fresh
allocation in JavaScript, so distinct from every pre-existing function).
The invocability check precedes the slot assignment; a thrown error carries
the heap as it stood at the throw. Before `reset()` runs the instance
fields `isRecording`/`callThru`/`callHistory` are JavaScript `undefined`,
rendered here by placeholder values that `reset` then overwrites. -/
def MojoSpy (h : Heap) (objId : Nat) (methodName : String) (wrapperId : Nat) :
    Except (Value × Heap) (Spy × Heap) :=
  let method := h objId methodName
  if isFunction method then
    let h2 := setSlot h objId methodName (Value.fn wrapperId)
    let s0 : Spy :=
      { object := Value.obj objId, methodName := methodName, method := method,
        isRecording := false, callThru := Value.undef, callHistory := [] }
    Except.ok (s0.reset, h2)
  else
    Except.error (notCallableMsg, h)

/-- Behaviour of callees: a function value applied to a `this` context and
an argument list either returns a value or throws one. -/
def FnSem : Type := Value → Value → List Value → Except Value Value

/-- One dispatch performed by the wrapper: which callable was invoked, with
which `this` and argument list, and what it returned or threw. -/
structure CallEvent where
  callee : Value
  thisV : Value
  args : List Value
  result : Except Value Value

/-- `typeof self.callThru === 'function' ? self.callThru : method`. -/
def calleeOf (callThruVal methodVal : Value) : Value :=
  if isFunction callThruVal then callThruVal else methodVal

/-- One invocation of the interception wrapper `spy` installed by the
constructor: capture the arguments, push them onto `callHistory` when
recording, then dispatch on the truthiness of `callThru`. `method` is the
closure-captured original implementation. The third component is what the
wrapper itself returns to the call site (the wrapper body has no `return`
statement, so a normal completion yields `undefined`; an error thrown by
the callee propagates). The middle component lists the dispatches made. -/
def spyInvoke (sem : FnSem) (method : Value) (s : Spy) (thisV : Value)
    (args : List Value) : Spy × List CallEvent × Except Value Value :=
  let s1 := if s.isRecording then
    { s with callHistory := s.callHistory ++ [args] } else s
  if truthy s.callThru then
    let callee := calleeOf s.callThru method
    let res := sem callee thisV args
    match res with
    | Except.ok _ => (s1, [⟨callee, thisV, args, res⟩], Except.ok Value.undef)
    | Except.error e => (s1, [⟨callee, thisV, args, res⟩], Except.error e)
  else
    (s1, [], Except.ok Value.undef)

/-- `retire()`: restores the slot and nulls `method` when
`this.object && this.methodName && this.method` is truthy, otherwise a
no-op. For spies built by the constructor `object` is always an object
reference (the inner match's fallback is unreachable for them). -/
def Spy.retire (s : Spy) (h : Heap) : Spy × Heap :=
  if truthy s.object && truthy (Value.str s.methodName) && truthy s.method
  then
    match s.object with
    | Value.obj oid =>
        ({ s with method := Value.null }, setSlot h oid s.methodName s.method)
    | _ => (s, h)
  else (s, h)

/-- The inner `for` loop of `wasCalled`: pairwise `===` comparison,
returning `false` at the first mismatch (only reached on lists of equal
length). -/
def argsAllEq : List Value → List Value → Bool
  | a :: as, b :: bs => if strictEq a b then argsAllEq as bs else false
  | _, _ => true

/-- `wasCalled(...)`: with arguments, `some` entry of the history must have
the same length and pairwise `===` elements (a length mismatch makes the
`some` callback fall through, returning `undefined`, i.e. falsy); with no
arguments, whether the history is non-empty. -/
def Spy.wasCalled (s : Spy) (expectedArgs : List Value) : Bool :=
  if expectedArgs.length != 0 then
    s.callHistory.any fun callArgs =>
      if callArgs.length == expectedArgs.length then
        argsAllEq callArgs expectedArgs
      else false
  else
    decide (s.callHistory.length > 0)

/-- The control surface of a spy that touches only the instance state:
an intercepted call, the recording toggles, `clear`, `reset`, and the
assignment `spy.callThru = v`. -/
inductive SpyOp where
  | call (thisV : Value) (args : List Value)
  | on
  | off
  | clear
  | reset
  | setCallThru (v : Value)
deriving DecidableEq, Repr

/-- Effect of one operation on the spy instance state. -/
def stepOp (sem : FnSem) (method : Value) (s : Spy) : SpyOp → Spy
  | SpyOp.call t a => (spyInvoke sem method s t a).1
  | SpyOp.on => s.on
  | SpyOp.off => s.off
  | SpyOp.clear => s.clear
  | SpyOp.reset => s.reset
  | SpyOp.setCallThru v => { s with callThru := v }

/-- A sequence of intercepted invocations, each given as (this, args). -/
def runCalls (sem : FnSem) (method : Value) (s : Spy)
    (calls : List (Value × List Value)) : Spy :=
  calls.foldl (fun st c => (spyInvoke sem method st c.1 c.2).1) s

/-- A call site invoking `target[memberName]`: when the slot still holds
the spy wrapper the interception runs; otherwise whatever function the
slot holds runs directly and the spy state is untouched. -/
def invokeMember (sem : FnSem) (wrapperId : Nat) (method : Value) (h : Heap)
    (s : Spy) (o : Nat) (m : String) (thisV : Value) (args : List Value) :
    Spy × Except Value Value :=
  if h o m = Value.fn wrapperId then
    let out := spyInvoke sem method s thisV args
    (out.1, out.2.2)
  else
    (s, sem (h o m) thisV args)

/-! ### Concrete fixtures used to instantiate the theorems -/

/-- An empty heap: every member of every object is `undefined`. -/
def heap0 : Heap := fun _ _ => Value.undef

/-- A heap where object 0 has a method `f` (function id 3). -/
def heapA : Heap :=
  fun o m => if o = 0 ∧ m = "f" then Value.fn 3 else Value.undef

/-- The heap after installing wrapper id 5 over `f` of object 0. -/
def heapA2 : Heap := setSlot heapA 0 "f" (Value.fn 5)

/-- A heap where object 0 has a function under the empty member name. -/
def cexHeap : Heap :=
  fun o m => if o = 0 ∧ m = "" then Value.fn 3 else Value.undef

/-- Callee semantics where every call returns `undefined`. -/
def sem0 : FnSem := fun _ _ _ => Except.ok Value.undef

/-- Callee semantics where every call returns the number 42. -/
def semNum : FnSem := fun _ _ _ => Except.ok (Value.num 42)

/-- Callee semantics where every call throws the string `boom`. -/
def semErr : FnSem := fun _ _ _ => Except.error (Value.str "boom")

/-- A freshly constructed spy on `heapA`, object 0, member `f`. -/
def spyA : Spy :=
  { object := Value.obj 0, methodName := "f", method := Value.fn 3,
    isRecording := true, callThru := Value.bool false, callHistory := [] }

/-- Like `spyA` but with one recorded call `(7)` in the history. -/
def spyB : Spy :=
  { object := Value.obj 0, methodName := "f", method := Value.fn 3,
    isRecording := true, callThru := Value.bool false,
    callHistory := [[Value.num 7]] }

/-- Like `spyA` but with a substitute (function id 9) as forward mode. -/
def spyC : Spy :=
  { object := Value.obj 0, methodName := "f", method := Value.fn 3,
    isRecording := true, callThru := Value.fn 9, callHistory := [] }

/-- Like `spyA` but with pass-through forward mode (`callThru = true`). -/
def spyD : Spy :=
  { object := Value.obj 0, methodName := "f", method := Value.fn 3,
    isRecording := true, callThru := Value.bool true, callHistory := [] }

/-- The value left in slot `(0, "")` after constructing a spy over
`cexHeap` with wrapper id 5 and then calling `retire()` once. -/
def cexSlotAfterRetire : Value :=
  match MojoSpy cexHeap 0 "" 5 with
  | Except.ok (s, h2) => (s.retire h2).2 0 ""
  | Except.error _ => Value.undef

/-! ### Helper lemmas -/

/-- The spy state after one wrapper invocation: the history entry is
appended when recording, independently of the dispatch branch taken. -/
theorem spyInvoke_fst (sem : FnSem) (method : Value) (s : Spy)
    (thisV : Value) (args : List Value) :
    (spyInvoke sem method s thisV args).1
      = if s.isRecording then
          { s with callHistory := s.callHistory ++ [args] } else s := by
  unfold spyInvoke
  cases hT : truthy s.callThru <;> simp only [Bool.false_eq_true, if_true,
    if_false, ite_true, ite_false]
  cases hres : sem (calleeOf s.callThru method) thisV args <;> rfl

/-- A wrapper invocation never flips the recording flag. -/
theorem spyInvoke_isRecording (sem : FnSem) (method : Value) (s : Spy)
    (thisV : Value) (args : List Value) :
    (spyInvoke sem method s thisV args).1.isRecording = s.isRecording := by
  rw [spyInvoke_fst]
  cases hR : s.isRecording <;> simp [hR]

/-- A wrapper invocation never changes the forward-mode field. -/
theorem spyInvoke_callThru (sem : FnSem) (method : Value) (s : Spy)
    (thisV : Value) (args : List Value) :
    (spyInvoke sem method s thisV args).1.callThru = s.callThru := by
  rw [spyInvoke_fst]
  cases hR : s.isRecording <;> simp [hR]

/-- History after one wrapper invocation, as a function of the flag. -/
theorem spyInvoke_callHistory (sem : FnSem) (method : Value) (s : Spy)
    (thisV : Value) (args : List Value) :
    (spyInvoke sem method s thisV args).1.callHistory
      = if s.isRecording then s.callHistory ++ [args] else s.callHistory := by
  rw [spyInvoke_fst]
  cases hR : s.isRecording <;> simp [hR]

/-- The dispatch events of one wrapper invocation, by forward mode. -/
theorem spyInvoke_events (sem : FnSem) (method : Value) (s : Spy)
    (thisV : Value) (args : List Value) :
    (spyInvoke sem method s thisV args).2.1
      = if truthy s.callThru then
          [⟨calleeOf s.callThru method, thisV, args,
            sem (calleeOf s.callThru method) thisV args⟩]
        else [] := by
  unfold spyInvoke
  cases hT : truthy s.callThru <;> simp only [Bool.false_eq_true, ite_true,
    ite_false]
  cases hres : sem (calleeOf s.callThru method) thisV args <;>
    simp [hres]

/-- The value the wrapper hands back to the call site: `undefined` unless
the callee threw, in which case the thrown value propagates. -/
theorem spyInvoke_outcome (sem : FnSem) (method : Value) (s : Spy)
    (thisV : Value) (args : List Value) :
    (spyInvoke sem method s thisV args).2.2
      = if truthy s.callThru then
          (match sem (calleeOf s.callThru method) thisV args with
           | Except.ok _ => Except.ok Value.undef
           | Except.error e => Except.error e)
        else Except.ok Value.undef := by
  unfold spyInvoke
  cases hT : truthy s.callThru <;> simp only [Bool.false_eq_true, ite_true,
    ite_false]
  cases hres : sem (calleeOf s.callThru method) thisV args <;>
    simp [hres]

/-- A function value is truthy. -/
theorem truthy_of_isFunction (v : Value) (h : isFunction v = true) :
    truthy v = true := by
  cases v <;> simp_all [isFunction, truthy]

/-- An object reference is truthy. -/
theorem truthy_obj (i : Nat) : truthy (Value.obj i) = true := rfl

/-- A string is truthy exactly when non-empty. -/
theorem truthy_str_iff (s : String) : truthy (Value.str s) = (s != "") := rfl

/-- `null` is falsy. -/
theorem truthy_null : truthy Value.null = false := rfl

/-- Running a list of calls with recording on appends exactly the calls'
argument lists, oldest first. -/
theorem runCalls_callHistory (sem : FnSem) (method : Value)
    (calls : List (Value × List Value)) (s : Spy)
    (hR : s.isRecording = true) :
    (runCalls sem method s calls).callHistory
      = s.callHistory ++ calls.map Prod.snd := by
  induction calls generalizing s with
  | nil => simp [runCalls]
  | cons c rest ih =>
      have h1 : (spyInvoke sem method s c.1 c.2).1.isRecording = true := by
        rw [spyInvoke_isRecording]; exact hR
      have h2 := ih (spyInvoke sem method s c.1 c.2).1 h1
      simp only [runCalls, List.foldl_cons] at h2 ⊢
      rw [h2, spyInvoke_callHistory, if_pos hR, List.map_cons,
        List.append_assoc, List.singleton_append]

/-- `retire` never touches the call history. -/
theorem retire_callHistory (s : Spy) (h : Heap) :
    (s.retire h).1.callHistory = s.callHistory := by
  unfold Spy.retire
  split
  · cases hO : s.object <;> rfl
  · rfl

/-- The pairwise comparison loop, on lists of equal length, accepts
exactly when every position is strictly equal. -/
theorem argsAllEq_iff_all (as bs : List Value) (hlen : as.length = bs.length) :
    argsAllEq as bs = true ↔
      ∀ i, (h1 : i < as.length) → (h2 : i < bs.length) →
        strictEq (as.get ⟨i, h1⟩) (bs.get ⟨i, h2⟩) = true := by
  induction as generalizing bs with
  | nil =>
      cases bs with
      | nil =>
          simp only [argsAllEq]
          constructor
          · intro _ i h1 _
            exact absurd h1 (by simp)
          · intro _
            trivial
      | cons b bs2 => simp at hlen
  | cons a as2 ih =>
      cases bs with
      | nil => simp at hlen
      | cons b bs2 =>
          simp only [List.length_cons, Nat.succ.injEq] at hlen
          constructor
          · intro hEq i h1 h2
            cases hab : strictEq a b with
            | false => simp [argsAllEq, hab] at hEq
            | true =>
                simp only [argsAllEq, hab, if_true] at hEq
                cases i with
                | zero => simpa using hab
                | succ j =>
                    have h1j : j < as2.length := Nat.lt_of_succ_lt_succ h1
                    have h2j : j < bs2.length := Nat.lt_of_succ_lt_succ h2
                    have := (ih bs2 hlen).mp hEq j h1j h2j
                    simpa using this
          · intro hAll
            have hab : strictEq a b = true := by
              have := hAll 0 (by simp) (by simp)
              simpa using this
            simp only [argsAllEq, hab, if_true]
            refine (ih bs2 hlen).mpr ?_
            intro j h1j h2j
            have := hAll (j + 1) (Nat.succ_lt_succ h1j) (Nat.succ_lt_succ h2j)
            simpa using this

/-- One entry of the history satisfies the `some` callback of `wasCalled`
exactly when its length matches and every position is strictly equal. -/
theorem wasCalledEntry_iff (entry expected : List Value) :
    ((if entry.length == expected.length then argsAllEq entry expected
      else false) = true)
      ↔ (entry.length = expected.length ∧
          ∀ i, (h1 : i < entry.length) → (h2 : i < expected.length) →
            strictEq (entry.get ⟨i, h1⟩) (expected.get ⟨i, h2⟩) = true) := by
  by_cases hl : entry.length = expected.length
  · rw [if_pos (by simpa using hl)]
    rw [argsAllEq_iff_all entry expected hl]
    simp [hl]
  · rw [if_neg (by simpa using hl)]
    simp [hl]

/-! ### Claims -/

/-- C1: each intercepted invocation made while `isRecording` is true
appends exactly one entry to `callHistory`, that entry being exactly the
call's argument list; invocations while recording is off leave the history
unchanged; over a sequence of recorded calls the history is the argument
lists in order, oldest first; `retire` never touches the history; and no
spy operation empties a non-empty history except `clear` and `reset`. -/
theorem C1_callHistory_invariant (sem : FnSem) (method : Value) (s : Spy)
    (thisV : Value) (args : List Value) (calls : List (Value × List Value))
    (h : Heap) (op : SpyOp) :
    ((spyInvoke sem method s thisV args).1.callHistory
        = if s.isRecording then s.callHistory ++ [args] else s.callHistory)
    ∧ (s.isRecording = true →
        (runCalls sem method s calls).callHistory
          = s.callHistory ++ calls.map Prod.snd)
    ∧ ((s.retire h).1.callHistory = s.callHistory)
    ∧ ((stepOp sem method s op).callHistory = [] →
        s.callHistory = [] ∨ op = SpyOp.clear ∨ op = SpyOp.reset) := by
  refine ⟨spyInvoke_callHistory sem method s thisV args,
    fun hR => runCalls_callHistory sem method calls s hR,
    retire_callHistory s h, ?_⟩
  intro hEmpty
  rcases op with ⟨t, a⟩ | _ | _ | _ | _ | v
  · left
    simp only [stepOp] at hEmpty
    rw [spyInvoke_callHistory] at hEmpty
    cases hR : s.isRecording
    · rw [hR] at hEmpty
      simpa using hEmpty
    · rw [hR] at hEmpty
      simp at hEmpty
  · left; exact hEmpty
  · left; exact hEmpty
  · right; left; rfl
  · right; right; rfl
  · left; exact hEmpty

/-- Witness for C1 at concrete inputs: a spy with recording on and one
prior entry; two recorded calls append their argument lists in order, and
the `clear` operation is among those allowed to empty the history. -/
theorem C1_callHistory_invariant_witness :
    spyB.isRecording = true
    ∧ (runCalls sem0 (Value.fn 3) spyB
        [(Value.undef, [Value.num 1]), (Value.undef, [Value.num 2])]).callHistory
        = spyB.callHistory ++ [[Value.num 1], [Value.num 2]]
    ∧ (spyB.callHistory = [] ∨ SpyOp.clear = SpyOp.clear
        ∨ SpyOp.clear = SpyOp.reset) :=
  ⟨rfl,
   (C1_callHistory_invariant sem0 (Value.fn 3) spyB Value.undef []
      [(Value.undef, [Value.num 1]), (Value.undef, [Value.num 2])] heap0
      SpyOp.clear).2.1 rfl,
   (C1_callHistory_invariant sem0 (Value.fn 3) spyB Value.undef [] [] heap0
      SpyOp.clear).2.2.2 rfl⟩

/-- C2: dispatch follows the active forward mode. Falsy `callThru`
(Silent): no callable is invoked. Truthy non-function (PassThrough): the
original implementation is invoked exactly once, with the caller's `this`
and the same argument list. Function `callThru` (Substitute): that function
is invoked exactly once with the caller's `this` and the same argument
list, and every dispatch of the wrapper is to the substitute — the
original is not also invoked by the wrapper itself. -/
theorem C2_forward_mode_dispatch (sem : FnSem) (method : Value) (s : Spy)
    (thisV : Value) (args : List Value) :
    (truthy s.callThru = false →
      (spyInvoke sem method s thisV args).2.1 = [])
    ∧ (truthy s.callThru = true → isFunction s.callThru = false →
      (spyInvoke sem method s thisV args).2.1
        = [⟨method, thisV, args, sem method thisV args⟩])
    ∧ (∀ f, s.callThru = Value.fn f →
      (spyInvoke sem method s thisV args).2.1
        = [⟨Value.fn f, thisV, args, sem (Value.fn f) thisV args⟩]
      ∧ ∀ ev, ev ∈ (spyInvoke sem method s thisV args).2.1 →
          ev.callee = Value.fn f) := by
  refine ⟨?_, ?_, ?_⟩
  · intro hF
    rw [spyInvoke_events, if_neg]
    simp [hF]
  · intro hT hNF
    have hc : calleeOf s.callThru method = method := by
      rw [calleeOf, if_neg]
      simp [hNF]
    rw [spyInvoke_events, if_pos hT, hc]
  · intro f hf
    have hT : truthy s.callThru = true := by rw [hf]; rfl
    have hc : calleeOf s.callThru method = Value.fn f := by
      rw [hf]; rfl
    constructor
    · rw [spyInvoke_events, if_pos hT, hc]
    · intro ev hev
      rw [spyInvoke_events, if_pos hT, hc] at hev
      rw [List.mem_singleton] at hev
      rw [hev]

/-- Witness for C2 at a concrete input: a spy whose forward mode is the
substitute function id 9 dispatches exactly one call to it. -/
theorem C2_forward_mode_dispatch_witness :
    (spyInvoke sem0 (Value.fn 3) spyC Value.undef [Value.num 1]).2.1
      = [⟨Value.fn 9, Value.undef, [Value.num 1],
          sem0 (Value.fn 9) Value.undef [Value.num 1]⟩] :=
  ((C2_forward_mode_dispatch sem0 (Value.fn 3) spyC Value.undef
      [Value.num 1]).2.2 9 rfl).1

/-- C3: `wasCalled()` with no arguments is true exactly when the history
is non-empty; `wasCalled(e1,...,eN)` with a non-empty expected list is true
exactly when some history entry has the same length and is pairwise
strictly (`===`) equal to it — entries of mismatched length or with a
mismatched element are merely skipped, as the existential shows. -/
theorem C3_wasCalled_spec (s : Spy) (expectedArgs : List Value) :
    (s.wasCalled [] = true ↔ s.callHistory ≠ [])
    ∧ (expectedArgs ≠ [] →
      (s.wasCalled expectedArgs = true ↔
        ∃ entry, entry ∈ s.callHistory
          ∧ entry.length = expectedArgs.length
          ∧ ∀ i, (h1 : i < entry.length) → (h2 : i < expectedArgs.length) →
              strictEq (entry.get ⟨i, h1⟩) (expectedArgs.get ⟨i, h2⟩)
                = true)) := by
  constructor
  · simp [Spy.wasCalled, List.length_pos]
  · intro hne
    have hlen : (expectedArgs.length != 0) = true := by
      simp only [bne_iff_ne, ne_eq, List.length_eq_zero]
      exact hne
    rw [Spy.wasCalled, if_pos (by simpa using hlen), List.any_eq_true]
    exact exists_congr fun entry =>
      and_congr_right fun _ => wasCalledEntry_iff entry expectedArgs

/-- Witness for C3 at a concrete input: the spy with history `[[7]]`
reports `wasCalled(7)` true. -/
theorem C3_wasCalled_spec_witness : spyB.wasCalled [Value.num 7] = true :=
  ((C3_wasCalled_spec spyB [Value.num 7]).2 (by decide)).mpr
    ⟨[Value.num 7], by decide, by decide,
     fun i h1 h2 => by
       cases i with
       | zero => rfl
       | succ j =>
           exact absurd h1 (by simp only [List.length_singleton]; omega)⟩

/-- C4, counterexample: the claim fails for a spy constructed with the
empty member name. Slot `(0, "")` of `cexHeap` holds the function id 3, so
construction succeeds and installs wrapper id 5; but `retire()`'s guard
`this.object && this.methodName && this.method` sees the falsy empty
string, so the first `retire()` is a no-op and the slot keeps the wrapper
(id 5) instead of being restored to the original (id 3). -/
theorem C4_retire_empty_name_counterexample :
    isFunction (cexHeap 0 "") = true
    ∧ cexHeap 0 "" = Value.fn 3
    ∧ cexSlotAfterRetire = Value.fn 5
    ∧ Value.fn 5 ≠ Value.fn 3 := by
  refine ⟨by decide, by decide, ?_, by decide⟩
  rfl

/-- C4, amended: for every spy successfully constructed on
`(target, memberName)` with a non-empty (truthy) member name, the first
`retire()` restores `target[memberName]` to the identical callable captured
at construction and nulls the `method` field; a second `retire()` is a
no-op on state and heap; and after retirement an invocation of
`target[memberName]` no longer reaches the wrapper, so the spy state (and
hence `callHistory`) is unchanged by it. -/
theorem C4_retire_restores (h : Heap) (o : Nat) (m : String) (wid : Nat)
    (s : Spy) (h2 : Heap) (sem : FnSem) (thisV : Value) (args : List Value)
    (hm : m ≠ "")
    (hok : MojoSpy h o m wid = Except.ok (s, h2))
    (hfresh : Value.fn wid ≠ h o m) :
    (s.retire h2).2 o m = h o m
    ∧ (s.retire h2).1.method = Value.null
    ∧ (∀ h3, (s.retire h2).1.retire h3 = ((s.retire h2).1, h3))
    ∧ (invokeMember sem wid (h o m) (s.retire h2).2 (s.retire h2).1
        o m thisV args).1 = (s.retire h2).1 := by
  have hfn : isFunction (h o m) = true := by
    by_contra hno
    simp only [MojoSpy] at hok
    rw [if_neg hno] at hok
    exact Except.noConfusion hok
  have hok2 : MojoSpy h o m wid
      = Except.ok (⟨⟨Value.obj o, m, h o m, true, Value.bool false, []⟩,
          setSlot h o m (Value.fn wid)⟩) := by
    simp only [MojoSpy]
    rw [if_pos hfn]
    rfl
  rw [hok2, Except.ok.injEq, Prod.mk.injEq] at hok
  obtain ⟨hs, hh⟩ := hok
  subst hs
  subst hh
  have hT : truthy (h o m) = true := truthy_of_isFunction (h o m) hfn
  refine ⟨?_, ?_, ?_, ?_⟩
  · simp [Spy.retire, truthy_obj, truthy_str_iff, hm, hT, setSlot]
  · simp [Spy.retire, truthy_obj, truthy_str_iff, hm, hT]
  · intro h3
    simp [Spy.retire, truthy_obj, truthy_str_iff, truthy_null, hm, hT]
  · simp [invokeMember, Spy.retire, truthy_obj, truthy_str_iff, hm, hT,
      setSlot, Ne.symm hfresh]

/-- Witness for the amended C4 at a concrete input: constructing on
`heapA` (object 0, member `f`, original function id 3, wrapper id 5) and
retiring restores slot `(0, "f")` to the original. -/
theorem C4_retire_restores_witness :
    (spyA.retire heapA2).2 0 "f" = heapA 0 "f" :=
  (C4_retire_restores heapA 0 "f" 5 spyA heapA2 sem0 Value.undef []
    (by decide) rfl (by decide)).1

/-- C5: successful construction on an invocable member captures the
pre-construction value of the slot as `method` (the original
implementation), replaces the slot with the distinct wrapper callable, and
initializes the state exactly as `reset()` does: recording on, forward
mode Silent (`callThru = false`), history empty — so the constructed state
is a fixed point of `reset`. -/
theorem C5_construction (h : Heap) (o : Nat) (m : String) (wid : Nat)
    (hfn : isFunction (h o m) = true)
    (hfresh : Value.fn wid ≠ h o m) :
    ∃ s h2, MojoSpy h o m wid = Except.ok (s, h2)
      ∧ s.method = h o m
      ∧ h2 o m = Value.fn wid
      ∧ isFunction (h2 o m) = true
      ∧ h2 o m ≠ h o m
      ∧ s.isRecording = true
      ∧ s.callThru = Value.bool false
      ∧ s.callHistory = []
      ∧ s.reset = s := by
  refine ⟨⟨Value.obj o, m, h o m, true, Value.bool false, []⟩,
    setSlot h o m (Value.fn wid),
    ?_, rfl, ?_, ?_, ?_, rfl, rfl, rfl, rfl⟩
  · simp only [MojoSpy]
    rw [if_pos hfn]
    rfl
  · simp [setSlot]
  · simp [setSlot, isFunction]
  · simp only [setSlot, if_pos rfl]
    intro hEq
    exact hfresh hEq

/-- Witness for C5 at a concrete input: constructing on `heapA` (object 0,
member `f`, original id 3, wrapper id 5). -/
theorem C5_construction_witness :
    ∃ s h2, MojoSpy heapA 0 "f" 5 = Except.ok (s, h2)
      ∧ s.method = heapA 0 "f"
      ∧ h2 0 "f" = Value.fn 5
      ∧ isFunction (h2 0 "f") = true
      ∧ h2 0 "f" ≠ heapA 0 "f"
      ∧ s.isRecording = true
      ∧ s.callThru = Value.bool false
      ∧ s.callHistory = []
      ∧ s.reset = s :=
  C5_construction heapA 0 "f" 5 (by decide) (by decide)

/-- C6: constructing on a non-invocable member throws the
not-callable error synchronously; the error carries the heap exactly as it
was (the check precedes the slot assignment), so the target is untouched
and no spy state is created. -/
theorem C6_not_callable_rejected (h : Heap) (o : Nat) (m : String)
    (wid : Nat) (hfn : isFunction (h o m) = false) :
    MojoSpy h o m wid = Except.error (notCallableMsg, h) := by
  simp only [MojoSpy]
  rw [if_neg]
  simp [hfn]

/-- Witness for C6 at a concrete input: member `g` of object 0 in `heapA`
is `undefined`, so construction fails and leaves the heap untouched. -/
theorem C6_not_callable_rejected_witness :
    MojoSpy heapA 0 "g" 7 = Except.error (notCallableMsg, heapA) :=
  C6_not_callable_rejected heapA 0 "g" 7 (by decide)

/-- C7: when dispatch happens (truthy `callThru`) and the callee throws,
the wrapper propagates exactly that thrown value to its call site; the
history entry pushed before dispatch is kept (the state is exactly the
recorded state); and the spy state never depends on what the callee did —
two arbitrary callee semantics leave identical post-states, so neither the
outcome nor the return value is recorded. -/
theorem C7_error_propagation (sem sem2 : FnSem) (method : Value) (s : Spy)
    (thisV : Value) (args : List Value) (e : Value)
    (hT : truthy s.callThru = true)
    (hE : sem (calleeOf s.callThru method) thisV args = Except.error e) :
    (spyInvoke sem method s thisV args).2.2 = Except.error e
    ∧ (spyInvoke sem method s thisV args).1.callHistory
        = (if s.isRecording then s.callHistory ++ [args] else s.callHistory)
    ∧ (spyInvoke sem method s thisV args).1
        = (spyInvoke sem2 method s thisV args).1 := by
  refine ⟨?_, spyInvoke_callHistory sem method s thisV args, ?_⟩
  · rw [spyInvoke_outcome, if_pos hT, hE]
  · rw [spyInvoke_fst, spyInvoke_fst]

/-- Witness for C7 at a concrete input: a pass-through spy whose original
throws the string `boom` propagates exactly that error. -/
theorem C7_error_propagation_witness :
    (spyInvoke semErr (Value.fn 3) spyD Value.undef []).2.2
      = Except.error (Value.str "boom") :=
  (C7_error_propagation semErr sem0 (Value.fn 3) spyD Value.undef []
    (Value.str "boom") rfl rfl).1

/-- C8: `clear()` empties `callHistory` and changes nothing else — the
recording flag, the forward mode and the identity fields are untouched
(and, being a total function of the state, it raises no error for any
spy state). -/
theorem C8_clear_frame (s : Spy) :
    (s.clear).callHistory = []
    ∧ (s.clear).isRecording = s.isRecording
    ∧ (s.clear).callThru = s.callThru
    ∧ (s.clear).object = s.object
    ∧ (s.clear).methodName = s.methodName
    ∧ (s.clear).method = s.method :=
  ⟨rfl, rfl, rfl, rfl, rfl, rfl⟩

/-- C9: the wrapper returns `undefined` to the caller in every forward
mode: with falsy `callThru` nothing is dispatched and `undefined` is
returned, and whenever the dispatched callee (original or substitute)
returns normally — whatever value `r` it returns — the wrapper still
returns `undefined`, discarding `r`. -/
theorem C9_return_value_discarded (sem : FnSem) (method : Value) (s : Spy)
    (thisV : Value) (args : List Value) (r : Value) :
    (truthy s.callThru = false →
      (spyInvoke sem method s thisV args).2.2 = Except.ok Value.undef)
    ∧ (sem (calleeOf s.callThru method) thisV args = Except.ok r →
      (spyInvoke sem method s thisV args).2.2 = Except.ok Value.undef) := by
  constructor
  · intro hF
    rw [spyInvoke_outcome, if_neg]
    simp [hF]
  · intro hOk
    rw [spyInvoke_outcome]
    by_cases hT : truthy s.callThru = true
    · rw [if_pos hT, hOk]
    · rw [if_neg hT]

/-- Witness for C9 at a concrete input: a pass-through spy whose original
returns the number 42 still hands `undefined` back to the caller. -/
theorem C9_return_value_discarded_witness :
    (spyInvoke semNum (Value.fn 3) spyD Value.undef []).2.2
      = Except.ok Value.undef :=
  (C9_return_value_discarded semNum (Value.fn 3) spyD Value.undef []
    (Value.num 42)).2 rfl

/-- C10: the forward mode is the overloaded `callThru` field, dispatched
on truthiness and type: each of the falsy values `false`, `0`, `null`,
`undefined`, `''` — indeed every falsy value — behaves as Silent (no
dispatch); every truthy non-function value behaves as PassThrough
(dispatch to the original); and every function value behaves as Substitute
(dispatch to it). -/
theorem C10_callThru_truthiness (sem : FnSem) (method : Value) (s : Spy)
    (thisV : Value) (args : List Value) :
    (∀ v, (v = Value.bool false ∨ v = Value.num 0 ∨ v = Value.null
        ∨ v = Value.undef ∨ v = Value.str "") →
      (spyInvoke sem method { s with callThru := v } thisV args).2.1 = [])
    ∧ (∀ v, truthy v = false →
      (spyInvoke sem method { s with callThru := v } thisV args).2.1 = [])
    ∧ (∀ v, truthy v = true → isFunction v = false →
      (spyInvoke sem method { s with callThru := v } thisV args).2.1
        = [⟨method, thisV, args, sem method thisV args⟩])
    ∧ (∀ f, (spyInvoke sem method { s with callThru := Value.fn f }
        thisV args).2.1
        = [⟨Value.fn f, thisV, args, sem (Value.fn f) thisV args⟩]) := by
  have silent : ∀ v, truthy v = false →
      (spyInvoke sem method { s with callThru := v } thisV args).2.1 = [] := by
    intro v hF
    rw [spyInvoke_events, if_neg]
    intro hC
    rw [show ({ s with callThru := v } : Spy).callThru = v from rfl] at hC
    rw [hF] at hC
    exact Bool.false_ne_true hC
  refine ⟨?_, silent, ?_, ?_⟩
  · intro v hv
    refine silent v ?_
    rcases hv with hv | hv | hv | hv | hv <;> rw [hv] <;> rfl
  · intro v hT hNF
    have hc : calleeOf ({ s with callThru := v } : Spy).callThru method
        = method := by
      rw [show ({ s with callThru := v } : Spy).callThru = v from rfl]
      rw [calleeOf, if_neg]
      simp [hNF]
    rw [spyInvoke_events, if_pos (by simpa using hT), hc]
  · intro f
    have hc : calleeOf ({ s with callThru := Value.fn f } : Spy).callThru
        method = Value.fn f := rfl
    rw [spyInvoke_events, if_pos (by rfl), hc]

/-- Witness for C10 at a concrete input: the falsy number 0 as `callThru`
dispatches nothing. -/
theorem C10_callThru_truthiness_witness :
    (spyInvoke sem0 (Value.fn 3) { spyA with callThru := Value.num 0 }
        Value.undef []).2.1 = [] :=
  (C10_callThru_truthiness sem0 (Value.fn 3) spyA Value.undef []).2.1
    (Value.num 0) rfl

end MojoSpyJS
